import Mathlib

set_option maxHeartbeats 1000000

/-!
Verification development for the multi-target show-command collection and
structured-extraction pipeline (the StreamLit app.py and Tkinter
tk_collector_app.py variants).  The Python source is shallowly embedded:
pandas dataframes become lists of records, the thread pool loop becomes a
fold over the per-target results in completion order, and the Python
regular-expression engine is modelled by a small executable backtracking
matcher over a subset of the pattern syntax (literals, escapes for the
common character classes, anchors, grouping, named groups, alternation and
the star, plus and question-mark repetitions), with case-insensitive
matching modelled over ASCII.
-/

/-- Upper-to-lower ASCII letter pairs. -/
def ucPairs : List (Char × Char) :=
  [('A','a'), ('B','b'), ('C','c'), ('D','d'), ('E','e'), ('F','f'),
   ('G','g'), ('H','h'), ('I','i'), ('J','j'), ('K','k'), ('L','l'),
   ('M','m'), ('N','n'), ('O','o'), ('P','p'), ('Q','q'), ('R','r'),
   ('S','s'), ('T','t'), ('U','u'), ('V','v'), ('W','w'), ('X','x'),
   ('Y','y'), ('Z','z')]

/-- ASCII lower-casing of one character.  Models Python lower-casing and the
IGNORECASE regex flag restricted to ASCII. -/
def lowerChar (c : Char) : Char :=
  match ucPairs.find? (fun p => p.1 == c) with
  | some p => p.2
  | none => c

/-- ASCII lower-casing of a string (Python str.lower restricted to ASCII). -/
def lowerStr (s : String) : String := ⟨s.data.map lowerChar⟩

/-- Whether the list needle occurs as a contiguous run inside hay. -/
def substrB (needle : List Char) : List Char → Bool
  | [] => needle.isEmpty
  | c :: rest => needle.isPrefixOf (c :: rest) || substrB needle rest

/-- Case-insensitive substring containment, modelling the str.contains
(case=False) calls of apply_filters on plain text patterns. -/
def containsCI (hay needle : String) : Bool :=
  substrB (lowerStr needle).data (lowerStr hay).data

/-- Character classes of the modelled regex subset. -/
inductive CharClass where
  | space
  | nonspace
  | digit
  | nondigit
  | word
  | nonword
  | dot
deriving DecidableEq

/-- Test of one character against a character class (dot excludes the
newline, word is alphanumeric or underscore, as in Python over ASCII). -/
def clsMatch : CharClass → Char → Bool
  | CharClass.space, c => c.isWhitespace
  | CharClass.nonspace, c => !c.isWhitespace
  | CharClass.digit, c => c.isDigit
  | CharClass.nondigit, c => !c.isDigit
  | CharClass.word, c => c.isAlphanum || c = '_'
  | CharClass.nonword, c => !(c.isAlphanum || c = '_')
  | CharClass.dot, c => c != '\n'

/-- Abstract syntax of the modelled Python regex subset. -/
inductive RE where
  | eps
  | lit (c : Char)
  | cls (k : CharClass)
  | bol
  | eol
  | seq (r1 r2 : RE)
  | alt (r1 r2 : RE)
  | star (r : RE)
  | group (name : String) (r : RE)
deriving DecidableEq

/-- Structural size of a regex, used to provision matcher fuel. -/
def reSize : RE → Nat
  | RE.eps => 1
  | RE.lit _ => 1
  | RE.cls _ => 1
  | RE.bol => 1
  | RE.eol => 1
  | RE.seq r1 r2 => reSize r1 + reSize r2 + 1
  | RE.alt r1 r2 => reSize r1 + reSize r2 + 1
  | RE.star r => reSize r + 1
  | RE.group _ r => reSize r + 1

/-- Capture environment: named groups with the text they consumed, in
completion order (a later entry for the same name supersedes earlier ones,
as with repeated groups in Python). -/
abbrev Caps := List (String × String)

/-- Backtracking matcher in continuation-passing style.  The boolean flag
says whether the current position is the start of the subject (for the
caret anchor); the dollar anchor requires the remaining input to be empty.
Case-insensitive comparison is built in, modelling the IGNORECASE flag that
every compilation site of the source passes.  Fuel bounds the nesting depth
of the search. -/
def reM : Nat → RE → List Char → Bool → Caps →
    (List Char → Bool → Caps → Option Caps) → Option Caps
  | 0, _, _, _, _, _ => none
  | _ + 1, RE.eps, s, st, caps, k => k s st caps
  | _ + 1, RE.lit c, s, _, caps, k =>
    match s with
    | [] => none
    | x :: rest => if lowerChar c == lowerChar x then k rest false caps else none
  | _ + 1, RE.cls kc, s, _, caps, k =>
    match s with
    | [] => none
    | x :: rest => if clsMatch kc x then k rest false caps else none
  | _ + 1, RE.bol, s, st, caps, k => if st then k s st caps else none
  | _ + 1, RE.eol, s, st, caps, k => if s.isEmpty then k s st caps else none
  | fuel + 1, RE.seq r1 r2, s, st, caps, k =>
    reM fuel r1 s st caps (fun s1 st1 c1 => reM fuel r2 s1 st1 c1 k)
  | fuel + 1, RE.alt r1 r2, s, st, caps, k =>
    (reM fuel r1 s st caps k) <|> (reM fuel r2 s st caps k)
  | fuel + 1, RE.star r, s, st, caps, k =>
    (reM fuel r s st caps (fun s1 st1 c1 =>
      if s1.length < s.length then reM fuel (RE.star r) s1 st1 c1 k else none))
    <|> k s st caps
  | fuel + 1, RE.group nm r, s, st, caps, k =>
    reM fuel r s st caps (fun s1 st1 c1 =>
      k s1 st1 (c1 ++ [(nm, (⟨s.take (s.length - s1.length)⟩ : String))]))

/-- Attempt a match anchored at the current position. -/
def searchAt (r : RE) (s : List Char) (st : Bool) : Option Caps :=
  reM ((reSize r + 1) * (s.length + 1) + 1) r s st [] (fun _ _ caps => some caps)

/-- Scan for the leftmost match position, like re.search. -/
def searchPos (r : RE) : List Char → Bool → Option Caps
  | s, st =>
    (searchAt r s st) <|>
      (match s with
       | [] => none
       | _ :: rest => searchPos r rest false)

/-- Boolean search on a string, modelling str.contains with a compiled
pattern (truthiness of re.search). -/
def reSearch (r : RE) (line : String) : Bool :=
  (searchPos r line.data true).isSome

/-- Capture-group names of a pattern in order of the opening parentheses
(the column order pandas extract produces). -/
def groupNamesRE : RE → List String
  | RE.eps => []
  | RE.lit _ => []
  | RE.cls _ => []
  | RE.bol => []
  | RE.eol => []
  | RE.seq r1 r2 => groupNamesRE r1 ++ groupNamesRE r2
  | RE.alt r1 r2 => groupNamesRE r1 ++ groupNamesRE r2
  | RE.star r => groupNamesRE r
  | RE.group nm r => nm :: groupNamesRE r

/-- Whether a list of names has no duplicates (Python rejects a pattern
that reuses a group name). -/
def nodupNames : List String → Bool
  | [] => true
  | n :: rest => !(rest.contains n) && nodupNames rest

mutual

/-- Parse an alternation (branches separated by vertical bars). -/
def parseAlt (fuel : Nat) (s : List Char) (idx : Nat) :
    Option (RE × List Char × Nat) :=
  match fuel with
  | 0 => none
  | fuel + 1 =>
    match parseSeq fuel s idx with
    | none => none
    | some (re, rest, idx1) =>
      match rest with
      | '|' :: r2 =>
        match parseAlt fuel r2 idx1 with
        | some (re2, rest2, idx2) => some (RE.alt re re2, rest2, idx2)
        | none => none
      | _ => some (re, rest, idx1)
termination_by structural fuel

/-- Parse a concatenation of repeated atoms, stopping at a vertical bar, a
closing parenthesis or the end of the pattern. -/
def parseSeq (fuel : Nat) (s : List Char) (idx : Nat) :
    Option (RE × List Char × Nat) :=
  match fuel with
  | 0 => none
  | fuel + 1 =>
    match s with
    | [] => some (RE.eps, [], idx)
    | ')' :: _ => some (RE.eps, s, idx)
    | '|' :: _ => some (RE.eps, s, idx)
    | _ =>
      match parseRep fuel s idx with
      | none => none
      | some (re, rest, idx1) =>
        match parseSeq fuel rest idx1 with
        | some (re2, rest2, idx2) => some (RE.seq re re2, rest2, idx2)
        | none => none
termination_by structural fuel

/-- Parse one atom with an optional star, plus or question-mark postfix. -/
def parseRep (fuel : Nat) (s : List Char) (idx : Nat) :
    Option (RE × List Char × Nat) :=
  match fuel with
  | 0 => none
  | fuel + 1 =>
    match parseAtom fuel s idx with
    | none => none
    | some (re, rest, idx1) =>
      match rest with
      | '*' :: r2 => some (RE.star re, r2, idx1)
      | '+' :: r2 => some (RE.seq re (RE.star re), r2, idx1)
      | '?' :: r2 => some (RE.alt re RE.eps, r2, idx1)
      | _ => some (re, rest, idx1)
termination_by structural fuel

/-- Parse one atom: a group (named, non-capturing or plain), an anchor, a
class escape, a dot or a literal character.  Unsupported or ill-formed
constructs yield none, the model of a pattern re.compile rejects. -/
def parseAtom (fuel : Nat) (s : List Char) (idx : Nat) :
    Option (RE × List Char × Nat) :=
  match fuel with
  | 0 => none
  | fuel + 1 =>
    match s with
    | [] => none
    | c :: rest =>
      if c = '(' then
        match rest with
        | '?' :: 'P' :: '<' :: r2 =>
          let nm := r2.takeWhile (fun d => d ≠ '>')
          match r2.dropWhile (fun d => d ≠ '>') with
          | '>' :: r4 =>
            if nm.isEmpty || !(nm.all (fun d => d.isAlphanum || d = '_')) then
              none
            else
              match parseAlt fuel r4 (idx + 1) with
              | some (re, ')' :: r5, idx1) =>
                some (RE.group (⟨nm⟩ : String) re, r5, idx1)
              | _ => none
          | _ => none
        | '?' :: ':' :: r2 =>
          match parseAlt fuel r2 idx with
          | some (re, ')' :: r5, idx1) => some (re, r5, idx1)
          | _ => none
        | '?' :: _ => none
        | _ =>
          match parseAlt fuel rest (idx + 1) with
          | some (re, ')' :: r5, idx1) =>
            some (RE.group (toString idx) re, r5, idx1)
          | _ => none
      else if c = ')' then none
      else if c = '|' then none
      else if c = '*' then none
      else if c = '+' then none
      else if c = '?' then none
      else if c = '[' then none
      else if c = '^' then some (RE.bol, rest, idx)
      else if c = '$' then some (RE.eol, rest, idx)
      else if c = '.' then some (RE.cls CharClass.dot, rest, idx)
      else if c = '\\' then
        match rest with
        | [] => none
        | e :: r2 =>
          if e = 's' then some (RE.cls CharClass.space, r2, idx)
          else if e = 'S' then some (RE.cls CharClass.nonspace, r2, idx)
          else if e = 'd' then some (RE.cls CharClass.digit, r2, idx)
          else if e = 'D' then some (RE.cls CharClass.nondigit, r2, idx)
          else if e = 'w' then some (RE.cls CharClass.word, r2, idx)
          else if e = 'W' then some (RE.cls CharClass.nonword, r2, idx)
          else if e.isAlphanum then none
          else some (RE.lit e, r2, idx)
      else some (RE.lit c, rest, idx)
termination_by structural fuel

end

/-- Compile a whole pattern string; none models re.error (which re.compile
raises on a syntactically invalid pattern, including a reused group name).
Unnamed capture groups receive their zero-based position as their column
name, as pandas extract labels them. -/
def parseRegex (p : String) : Option RE :=
  match parseAlt (4 * p.length + 8) p.data 0 with
  | some (re, [], _) => if nodupNames (groupNamesRE re) then some re else none
  | _ => none

/-- Last binding of a group name in a capture environment. -/
def lastAssoc (nm : String) (caps : Caps) : Option String :=
  ((caps.filter (fun pr => pr.1 == nm)).getLast?).map (fun pr => pr.2)

/-- Per-line result of pandas str.extract: for each group name in pattern
order, the captured text, or none when the line does not match or the
group did not participate in the match. -/
def extractGroups (rx : RE) (line : String) : List (String × Option String) :=
  match searchPos rx line.data true with
  | none => (groupNamesRE rx).map (fun nm => (nm, none))
  | some caps => (groupNamesRE rx).map (fun nm => (nm, lastAssoc nm caps))

/-- One line record of the line-oriented dataframe built by df_from_raw:
columns host, line_no, line, ts. -/
structure Row where
  host : String
  line_no : Option Nat
  line : String
  ts : String
deriving DecidableEq

/-- Python str.splitlines restricted to the newline character: split on
every newline, with no trailing empty line for a trailing newline. -/
def splitlinesAux (cur : List Char) : List Char → List String
  | [] => if cur.isEmpty then [] else [(⟨cur.reverse⟩ : String)]
  | c :: rest =>
    if c = '\n' then (⟨cur.reverse⟩ : String) :: splitlinesAux [] rest
    else splitlinesAux (c :: cur) rest

/-- Model of output.splitlines(). -/
def splitlines (s : String) : List String := splitlinesAux [] s.data

/-- Records contributed by one host inside the df_from_raw loop: an
optional sentinel record when the output has no lines and the caller keeps
empty rows, followed by one record per line with one-based numbering. -/
def host_rows (keep_empty_rows : Bool) (now_iso : String)
    (ho : String × String) : List Row :=
  let lines := if ho.2 ≠ "" then splitlines ho.2 else []
  (if keep_empty_rows && lines.isEmpty then
    [{ host := ho.1, line_no := none, line := "", ts := now_iso }]
  else []) ++
  (lines.enumFrom 1).map
    (fun il => { host := ho.1, line_no := some il.1, line := il.2, ts := now_iso })

/-- The df_from_raw builder: one record per output line with one-based line
numbers restarting for every host, and an optional sentinel record with a
null line number and empty text for a host whose output is empty.  The
timestamp is computed once, before the loop, and is therefore a single
parameter here. -/
def df_from_raw (outputs : List (String × String)) (keep_empty_rows : Bool)
    (now_iso : String) : List Row :=
  outputs.foldl (fun rows ho => rows ++ host_rows keep_empty_rows now_iso ho) []

/-- The safe_regex helper: an empty pattern or a pattern re.compile rejects
gives none; otherwise the compiled (case-insensitive) pattern. -/
def safe_regex (pattern : String) : Option RE :=
  if pattern = "" then none else parseRegex pattern

/-- The apply_filters chain: target substring, include substring, exclude
substring, include regex, exclude regex, each skipped when its field is
empty (and a regex stage also skipped when its pattern fails to compile). -/
def apply_filters (df : List Row) (host_contains include_text exclude_text
    include_regex exclude_regex : String) : List Row :=
  if df.isEmpty then df
  else
    let out := df
    let out := if host_contains ≠ "" then
        out.filter (fun r => containsCI r.host host_contains) else out
    let out := if include_text ≠ "" then
        out.filter (fun r => containsCI r.line include_text) else out
    let out := if exclude_text ≠ "" then
        out.filter (fun r => !containsCI r.line exclude_text) else out
    let out :=
      match safe_regex include_regex with
      | some rx => out.filter (fun r => reSearch rx r.line)
      | none => out
    let out :=
      match safe_regex exclude_regex with
      | some rx => out.filter (fun r => !reSearch rx r.line)
      | none => out
    out

/-- Row-local predicate equivalent to the whole filter chain. -/
def filterPred (host_contains include_text exclude_text include_regex
    exclude_regex : String) (r : Row) : Bool :=
  (decide (host_contains = "") || containsCI r.host host_contains) &&
  ((decide (include_text = "") || containsCI r.line include_text) &&
  ((decide (exclude_text = "") || !containsCI r.line exclude_text) &&
  ((match safe_regex include_regex with
    | some rx => reSearch rx r.line
    | none => true) &&
  (match safe_regex exclude_regex with
    | some rx => !reSearch rx r.line
    | none => true))))

/-- One row produced by the regex-to-columns extraction: the line columns
plus one column per capture group. -/
structure ExtractRow where
  host : String
  line_no : Option Nat
  line : String
  caps : List (String × Option String)
deriving DecidableEq

/-- The regex-to-columns tier: str.extract with IGNORECASE applied to every
line independently, concatenated with the host, line_no and line columns,
keeping only the rows in which at least one group captured (the notna-any
filter of the source).  An invalid pattern is the re.error branch; a
pattern without capture groups is the ValueError pandas raises. -/
def regex_extract (df_src : List Row) (pattern : String) :
    Except String (List ExtractRow) :=
  match parseRegex pattern with
  | none => Except.error "Invalid regex"
  | some rx =>
    if (groupNamesRE rx).isEmpty then
      Except.error "pattern contains no capture groups"
    else
      let withCaps := df_src.map
        (fun r => { host := r.host, line_no := r.line_no, line := r.line,
                    caps := extractGroups rx r.line : ExtractRow })
      Except.ok (withCaps.filter (fun er => er.caps.any (fun pr => pr.2.isSome)))

/-- Extraction row of one line under a compiled pattern (the host,
line_no and line columns concatenated with the per-group captures). -/
def toExtractRow (rx : RE) (r : Row) : ExtractRow :=
  { host := r.host, line_no := r.line_no, line := r.line,
    caps := extractGroups rx r.line }

/-- Python whitespace splitting with a maxsplit budget: skip leading
whitespace, then either emit the remainder verbatim once the budget is
exhausted, or emit the next token and continue.  A negative budget never
reaches zero and so means unlimited. -/
def wsSplitAux : Nat → List Char → Int → List String
  | 0, _, _ => []
  | fuel + 1, s, n =>
    let s1 := s.dropWhile Char.isWhitespace
    if s1.isEmpty then []
    else if n == 0 then [(⟨s1⟩ : String)]
    else
      (⟨s1.takeWhile (fun c => !c.isWhitespace)⟩ : String) ::
        wsSplitAux fuel (s1.dropWhile (fun c => !c.isWhitespace)) (n - 1)

/-- Model of line.split(None, n). -/
def pySplitWs (line : String) (n : Int) : List String :=
  wsSplitAux (line.length + 1) line.data n

/-- First occurrence of delim inside s, split into the part before and the
part after. -/
def findSplit (delim : List Char) : List Char → Option (List Char × List Char)
  | [] => none
  | c :: rest =>
    if delim.isPrefixOf (c :: rest) then
      some ([], (c :: rest).drop delim.length)
    else
      match findSplit delim rest with
      | some (pre, post) => some (c :: pre, post)
      | none => none

/-- Python literal-delimiter splitting with a maxsplit budget. -/
def litSplitAux : Nat → List Char → List Char → Int → List String
  | 0, s, _, _ => [(⟨s⟩ : String)]
  | fuel + 1, s, delim, n =>
    if n == 0 then [(⟨s⟩ : String)]
    else
      match findSplit delim s with
      | none => [(⟨s⟩ : String)]
      | some (pre, post) => (⟨pre⟩ : String) :: litSplitAux fuel post delim (n - 1)

/-- Model of line.split(delim, n) for a non-empty literal delimiter. -/
def pySplitLit (line : String) (delim : String) (n : Int) : List String :=
  litSplitAux (line.length + 1) line.data delim.data n

/-- One line split into parts as the split tier does: the reserved token
whitespace (compared lower-cased) selects any-run-of-whitespace semantics,
and a maxsplit of zero is passed on as unlimited. -/
def py_split (line : String) (delimiter : String) (maxsplit : Nat) : List String :=
  let n : Int := if maxsplit > 0 then (maxsplit : Int) else -1
  if lowerStr delimiter = "whitespace" then pySplitWs line n
  else pySplitLit line delimiter n

/-- Width of the split-column block: the widest split over the corpus (the
pandas expand=True column count). -/
def split_width (df_lines : List Row) (delimiter : String) (maxsplit : Nat) : Nat :=
  (df_lines.map (fun r => (py_split r.line delimiter maxsplit).length)).foldl max 0

/-- One row of the split-columns table. -/
structure SplitRow where
  host : String
  line_no : Option Nat
  line : String
  cols : List (Option String)
deriving DecidableEq

/-- The split_columns transformation: empty corpus or empty delimiter give
an empty table; otherwise every line is split, the columns are sized to the
widest split and shorter rows are padded with absent values, concatenated
with the host, line_no and line columns. -/
def split_columns (df_lines : List Row) (delimiter : String) (maxsplit : Nat) :
    List SplitRow :=
  if df_lines.isEmpty || delimiter = "" then []
  else
    let width := split_width df_lines delimiter maxsplit
    df_lines.map
      (fun r =>
        let parts := py_split r.line delimiter maxsplit
        { host := r.host, line_no := r.line_no, line := r.line,
          cols := parts.map some ++ List.replicate (width - parts.length) none })

/-- Positional column names of the split block. -/
def split_colnames (df_lines : List Row) (delimiter : String) (maxsplit : Nat) :
    List String :=
  (List.range (split_width df_lines delimiter maxsplit)).map
    (fun i => "c" ++ toString i)

/-- One structured row as textfsm_parse returns it: a field-to-value
mapping with lower-cased field names. -/
abbrev TRow := List (String × String)

/-- One completed run_command invocation: host, output text, error text
(the error is empty exactly on success). -/
structure RunResult where
  host : String
  output : String
  error : String
deriving DecidableEq

/-- Shared collection state of the StreamLit run loop: the raw outputs and
error records appended by the as_completed loop, the structured rows, and
the done counter driving the progress display. -/
structure SLState where
  raw_outputs : List (String × String)
  errors : List (String × String)
  structured_rows : List (String × TRow)
  done : Nat
deriving DecidableEq

/-- Initial (reset) collection state. -/
def initState : SLState := { raw_outputs := [], errors := [], structured_rows := [], done := 0 }

/-- One iteration of the StreamLit as_completed loop: an error result is
recorded in errors, a success is appended to raw_outputs (and, when
TextFSM is preferred, its parsed rows to structured_rows); the done counter
increases once either way.  The textfsm_parse call is abstracted as a
function from the output text to rows. -/
def sl_step (prefer_textfsm : Bool) (textfsm_parse : String → List TRow)
    (st : SLState) (res : RunResult) : SLState :=
  let st1 :=
    if res.error ≠ "" then
      { st with errors := st.errors ++ [(res.host, res.error)] }
    else
      let st2 := { st with raw_outputs := st.raw_outputs ++ [(res.host, res.output)] }
      if prefer_textfsm then
        { st2 with structured_rows :=
            st2.structured_rows ++ (textfsm_parse res.output).map (fun row => (res.host, row)) }
      else st2
  { st1 with done := st1.done + 1 }

/-- The whole StreamLit collection loop over the results in completion
order. -/
def run_collection (prefer_textfsm : Bool) (textfsm_parse : String → List TRow)
    (results : List RunResult) : SLState :=
  results.foldl (sl_step prefer_textfsm textfsm_parse) initState

/-- One iteration of the Tkinter worker loop.  It differs from the
StreamLit loop in one way: when TextFSM is preferred and the parse of a
successful output yields no rows, a TextFSM diagnostic is appended to the
same errors collection.  The Tkinter textfsm_parse returns rows plus a
reason string. -/
def tk_step (prefer_textfsm : Bool) (textfsm_parse : String → List TRow × String)
    (st : SLState) (res : RunResult) : SLState :=
  let st1 :=
    if res.error ≠ "" then
      { st with errors := st.errors ++ [(res.host, res.error)] }
    else
      let st2 := { st with raw_outputs := st.raw_outputs ++ [(res.host, res.output)] }
      if prefer_textfsm then
        let pr := textfsm_parse res.output
        if pr.1 ≠ [] then
          { st2 with structured_rows :=
              st2.structured_rows ++ pr.1.map (fun row => (res.host, row)) }
        else
          { st2 with errors := st2.errors ++ [(res.host, "TextFSM: " ++ pr.2)] }
      else st2
  { st1 with done := st1.done + 1 }

/-- The whole Tkinter worker loop over the results in completion order. -/
def tk_run_collection (prefer_textfsm : Bool)
    (textfsm_parse : String → List TRow × String)
    (results : List RunResult) : SLState :=
  results.foldl (tk_step prefer_textfsm textfsm_parse) initState

/-- Directory tree of an extracted template bundle: a name, the plain files
directly inside, and the subdirectories. -/
inductive Dir where
  | mk (name : String) (files : List String) (subs : List Dir)

/-- Name of a directory node. -/
def Dir.name : Dir → String
  | Dir.mk n _ _ => n

mutual

/-- Model of os.walk from a base path: the directory itself first, then its
subdirectories in order, depth first, yielding each full path with the
plain files directly inside it. -/
def walkDir (base : String) : Dir → List (String × List String)
  | Dir.mk _ files subs => (base, files) :: walkList base subs

/-- Walk a list of sibling subdirectories of the directory at base. -/
def walkList (base : String) : List Dir → List (String × List String)
  | [] => []
  | d :: ds => walkDir (base ++ "/" ++ d.name) d ++ walkList base ds

end

/-- Directories of the extracted archive that directly contain a file named
index, in walk order. -/
def candidate_dirs (base : String) (tree : Dir) : List String :=
  ((walkDir base tree).filter (fun e => e.2.contains "index")).map (fun e => e.1)

/-- Comparison by path string length, the key=len ordering the source sorts
candidate directories by. -/
def lenLe (a b : String) : Prop := a.length ≤ b.length

instance : DecidableRel lenLe := fun a b => Nat.decLe a.length b.length

instance : IsTotal String lenLe := ⟨fun a b => Nat.le_total a.length b.length⟩

instance : IsTrans String lenLe := ⟨fun _ _ _ => Nat.le_trans⟩

/-- The set_templates_from_zip selection: collect every extracted directory
that directly contains an index file, fail explicitly when there is none,
and otherwise activate the first directory of the list sorted by path
string length. -/
def set_templates_from_zip (base : String) (tree : Dir) : Except String String :=
  match List.insertionSort lenLe (candidate_dirs base tree) with
  | [] => Except.error "No index file found inside the ZIP."
  | chosen :: _ => Except.ok chosen

/-- Nesting depth of a path: the number of separators in it. -/
def pathDepth (p : String) : Nat := p.data.countP (fun c => c == '/')

/-- The Tkinter download-structured-best selection: the structured
(TextFSM) table when present, preferring its filtered view when that view
is non-empty; otherwise the regex table, the split table, and finally the
filtered line view with the full line corpus as last resort.  Returns the
chosen table with the file name it is saved under. -/
def download_structured_best {α : Type} (df_struct df_struct_filtered df_regex
    df_split df_filtered_lines df_lines_all : List α) : List α × String :=
  if !df_struct.isEmpty then
    ((if !df_struct_filtered.isEmpty then df_struct_filtered else df_struct),
      "show_results_textfsm_structured.csv")
  else if !df_regex.isEmpty then (df_regex, "show_results_regex_structured.csv")
  else if !df_split.isEmpty then (df_split, "show_results_split_columns.csv")
  else
    ((if !df_filtered_lines.isEmpty then df_filtered_lines else df_lines_all),
      "show_results_filtered_lines.csv")

/-- The StreamLit structured-download selection: the structured table is
exported through its filtered view (defined whenever the structured table
is non-empty), then the regex table, the split table, and finally exactly
the filtered line view. -/
def streamlit_best {α : Type} (df_struct df_struct_filtered df_regex
    df_split df_filtered_lines : List α) : List α × String :=
  if !df_struct.isEmpty then (df_struct_filtered, "show_results_textfsm_structured.csv")
  else if !df_regex.isEmpty then (df_regex, "show_results_regex_structured.csv")
  else if !df_split.isEmpty then (df_split, "show_results_split_columns.csv")
  else (df_filtered_lines, "show_results_filtered_lines.csv")

/-- Closed facts about the ASCII letter pairs used by all the character
lemmas below. -/
theorem ucPairs_facts :
    ∀ p ∈ ucPairs,
      (p.2.isWhitespace = p.1.isWhitespace) ∧
      (p.2.isDigit = p.1.isDigit) ∧
      ((p.2.isAlphanum || p.2 = '_') = (p.1.isAlphanum || p.1 = '_')) ∧
      ((p.2 != '\n') = (p.1 != '\n')) ∧
      lowerChar p.2 = p.2 := by decide

theorem lowerChar_lowerChar (c : Char) : lowerChar (lowerChar c) = lowerChar c := by
  unfold lowerChar
  cases h : ucPairs.find? (fun p => p.1 == c) with
  | none => rw [h]
  | some p =>
    have hm := List.mem_of_find?_eq_some h
    have hfix := (ucPairs_facts p hm).2.2.2.2
    unfold lowerChar at hfix
    exact hfix

theorem isWhitespace_lowerChar (c : Char) :
    (lowerChar c).isWhitespace = c.isWhitespace := by
  unfold lowerChar
  cases h : ucPairs.find? (fun p => p.1 == c) with
  | none => rfl
  | some p =>
    have hm := List.mem_of_find?_eq_some h
    have hb := List.find?_some h
    simp only [beq_iff_eq] at hb
    rw [← hb]
    exact (ucPairs_facts p hm).1

theorem isDigit_lowerChar (c : Char) : (lowerChar c).isDigit = c.isDigit := by
  unfold lowerChar
  cases h : ucPairs.find? (fun p => p.1 == c) with
  | none => rfl
  | some p =>
    have hm := List.mem_of_find?_eq_some h
    have hb := List.find?_some h
    simp only [beq_iff_eq] at hb
    rw [← hb]
    exact (ucPairs_facts p hm).2.1

theorem word_lowerChar (c : Char) :
    ((lowerChar c).isAlphanum || lowerChar c = '_') = (c.isAlphanum || c = '_') := by
  unfold lowerChar
  cases h : ucPairs.find? (fun p => p.1 == c) with
  | none => rfl
  | some p =>
    have hm := List.mem_of_find?_eq_some h
    have hb := List.find?_some h
    simp only [beq_iff_eq] at hb
    rw [← hb]
    exact (ucPairs_facts p hm).2.2.1

theorem ne_newline_lowerChar (c : Char) : (lowerChar c != '\n') = (c != '\n') := by
  unfold lowerChar
  cases h : ucPairs.find? (fun p => p.1 == c) with
  | none => rfl
  | some p =>
    have hm := List.mem_of_find?_eq_some h
    have hb := List.find?_some h
    simp only [beq_iff_eq] at hb
    rw [← hb]
    exact (ucPairs_facts p hm).2.2.2.1

/-- Every character class is insensitive to ASCII lower-casing of the
tested character. -/
theorem clsMatch_lowerChar (k : CharClass) (c : Char) :
    clsMatch k (lowerChar c) = clsMatch k c := by
  cases k with
  | space => exact isWhitespace_lowerChar c
  | nonspace => simp only [clsMatch, isWhitespace_lowerChar]
  | digit => exact isDigit_lowerChar c
  | nondigit => simp only [clsMatch, isDigit_lowerChar]
  | word => exact word_lowerChar c
  | nonword => simp only [clsMatch, word_lowerChar]
  | dot => exact ne_newline_lowerChar c

theorem isSome_orElse (a b : Option Caps) : (a <|> b).isSome = (a.isSome || b.isSome) := by
  cases a <;> rfl

/-- Matching success is invariant under ASCII lower-casing of the subject:
the matcher built for the IGNORECASE compilation mode accepts a subject
exactly when it accepts the lower-cased subject, for every continuation
pair that is itself insensitive in this sense and for arbitrary capture
environments. -/
theorem reM_lower : ∀ (fuel : Nat) (r : RE) (s : List Char) (st : Bool)
    (c c' : Caps) (k k' : List Char → Bool → Caps → Option Caps),
    (∀ t st1 d d', (k t st1 d).isSome = (k' (t.map lowerChar) st1 d').isSome) →
    (reM fuel r s st c k).isSome = (reM fuel r (s.map lowerChar) st c' k').isSome := by
  intro fuel
  induction fuel with
  | zero => intro r s st c c' k k' hk; rfl
  | succ fuel ih =>
    intro r s st c c' k k' hk
    cases r with
    | eps => exact hk s st c c'
    | lit ch =>
      cases s with
      | nil => rfl
      | cons x rest =>
        simp only [reM, List.map_cons]
        rw [lowerChar_lowerChar]
        by_cases h : (lowerChar ch == lowerChar x) = true
        · rw [if_pos h, if_pos h]; exact hk rest false c c'
        · rw [if_neg h, if_neg h]
    | cls kc =>
      cases s with
      | nil => rfl
      | cons x rest =>
        simp only [reM, List.map_cons]
        rw [clsMatch_lowerChar]
        by_cases h : clsMatch kc x = true
        · rw [if_pos h, if_pos h]; exact hk rest false c c'
        · rw [if_neg h, if_neg h]
    | bol =>
      cases st with
      | false => rfl
      | true => exact hk s true c c'
    | eol =>
      cases s with
      | nil => exact hk [] st c c'
      | cons x rest => rfl
    | seq r1 r2 =>
      simp only [reM]
      exact ih r1 s st c c' _ _ (fun t st1 d d' => ih r2 t st1 d d' k k' hk)
    | alt r1 r2 =>
      simp only [reM]
      rw [isSome_orElse, isSome_orElse,
        ih r1 s st c c' k k' hk, ih r2 s st c c' k k' hk]
    | star r =>
      simp only [reM]
      rw [isSome_orElse, isSome_orElse]
      have h1 : (reM fuel r s st c (fun s1 st1 c1 =>
          if s1.length < s.length then reM fuel (RE.star r) s1 st1 c1 k else none)).isSome
          = (reM fuel r (s.map lowerChar) st c' (fun s1 st1 c1 =>
          if s1.length < (s.map lowerChar).length then reM fuel (RE.star r) s1 st1 c1 k' else none)).isSome := by
        apply ih r s st c c'
        intro t st1 d d'
        simp only [List.length_map]
        by_cases h : t.length < s.length
        · rw [if_pos h, if_pos h]
          exact ih (RE.star r) t st1 d d' k k' hk
        · rw [if_neg h, if_neg h]
      rw [h1, hk s st c c']
    | group nm r =>
      simp only [reM]
      exact ih r s st c c' _ _ (fun t st1 d d' => hk t st1 _ _)

theorem searchAt_lower (r : RE) (s : List Char) (st : Bool) :
    (searchAt r s st).isSome = (searchAt r (s.map lowerChar) st).isSome := by
  unfold searchAt
  rw [List.length_map]
  exact reM_lower _ r s st [] [] _ _ (fun t st1 d d' => rfl)

theorem searchPos_lower (r : RE) : ∀ (s : List Char) (st : Bool),
    (searchPos r s st).isSome = (searchPos r (s.map lowerChar) st).isSome := by
  intro s
  induction s with
  | nil => intro st; rfl
  | cons x rest ih =>
    intro st
    simp only [searchPos, List.map_cons]
    rw [isSome_orElse, isSome_orElse, searchAt_lower r (x :: rest) st, ih false]
    simp only [List.map_cons]

/-- Searching a lower-cased string succeeds exactly when searching the
original does: compiled patterns match case-insensitively. -/
theorem reSearch_lower (r : RE) (line : String) :
    reSearch r (lowerStr line) = reSearch r line := by
  unfold reSearch lowerStr
  exact (searchPos_lower r line.data true).symm

/-- The filter chain equals one pass of List.filter with the row-local
conjunction of the enabled stage predicates. -/
theorem apply_filters_eq (df : List Row) (hc it et ir er : String) :
    apply_filters df hc it et ir er = df.filter (filterPred hc it et ir er) := by
  cases df with
  | nil => rfl
  | cons a l =>
    unfold apply_filters filterPred
    simp only [List.isEmpty_cons, Bool.false_eq_true, if_false]
    by_cases h1 : hc = "" <;> by_cases h2 : it = "" <;> by_cases h3 : et = "" <;>
      rcases hir : safe_regex ir with _ | rx1 <;>
      rcases her : safe_regex er with _ | rx2 <;>
      simp [h1, h2, h3, List.filter_filter, Bool.and_assoc, Bool.and_comm,
        Bool.and_left_comm]

theorem splitlinesAux_ne_nil : ∀ (l : List Char) (cur : List Char),
    l ≠ [] ∨ cur ≠ [] → splitlinesAux cur l ≠ [] := by
  intro l
  induction l with
  | nil =>
    intro cur h
    rcases h with h | h
    · exact absurd rfl h
    · simp only [splitlinesAux]
      rw [if_neg (by simpa using h)]
      simp
  | cons c rest ih =>
    intro cur h
    simp only [splitlinesAux]
    by_cases hc : c = '\n'
    · rw [if_pos hc]; simp
    · rw [if_neg hc]
      exact ih (c :: cur) (Or.inr (by simp))

/-- A non-empty output always has at least one line. -/
theorem splitlines_ne_nil (s : String) (h : s ≠ "") : splitlines s ≠ [] := by
  have hd : s.data ≠ [] := by
    intro hnil
    apply h
    cases s with
    | mk data =>
      simp only [String.data] at hnil
      subst hnil
      rfl
  exact splitlinesAux_ne_nil s.data [] (Or.inl hd)

theorem foldl_append_acc (g : (String × String) → List Row) :
    ∀ (outputs : List (String × String)) (acc : List Row),
      outputs.foldl (fun rows ho => rows ++ g ho) acc
        = acc ++ outputs.flatMap g := by
  intro outputs
  induction outputs with
  | nil => intro acc; simp
  | cons ho rest ih =>
    intro acc
    simp only [List.foldl_cons, List.flatMap_cons]
    rw [ih (acc ++ g ho), List.append_assoc]

/-- The builder loop is the concatenation of the per-host blocks in input
order. -/
theorem df_from_raw_eq_flatMap (outputs : List (String × String)) (keep : Bool)
    (now : String) :
    df_from_raw outputs keep now = outputs.flatMap (host_rows keep now) := by
  unfold df_from_raw
  rw [foldl_append_acc]
  simp

theorem df_from_raw_singleton (ho : String × String) (keep : Bool) (now : String) :
    df_from_raw [ho] keep now = host_rows keep now ho := by
  rw [df_from_raw_eq_flatMap]
  simp

theorem host_rows_of_ne (host output : String) (keep : Bool) (now : String)
    (h : output ≠ "") :
    host_rows keep now (host, output)
      = ((splitlines output).enumFrom 1).map
          (fun il => { host := host, line_no := some il.1, line := il.2, ts := now }) := by
  have hne : (splitlines output).isEmpty = false := by
    rcases hsp : splitlines output with _ | ⟨a, l⟩
    · exact absurd hsp (splitlines_ne_nil output h)
    · rfl
  unfold host_rows
  simp [h, hne]

theorem enum_map_line (o : String) (host now : String) :
    (((splitlines o).enumFrom 1).map
      (fun il => ({ host := host, line_no := some il.1, line := il.2, ts := now } : Row))).map Row.line
      = splitlines o := by
  rw [List.map_map]
  exact List.enumFrom_map_snd 1 (splitlines o)

theorem enum_map_line_no (o : String) (host now : String) :
    (((splitlines o).enumFrom 1).map
      (fun il => ({ host := host, line_no := some il.1, line := il.2, ts := now } : Row))).map Row.line_no
      = (List.range' 1 (splitlines o).length).map some := by
  have h1 : ((splitlines o).enumFrom 1).map Prod.fst
      = List.range' 1 (splitlines o).length := by
    rw [List.enumFrom_map_fst]
  rw [List.map_map, ← h1, List.map_map]
  rfl

/-- C6: the Line Corpus Builder emits, per target in input order, exactly
one record per newline-delimited output line, with line numbers one up to
the line count in original order (restarting for every target since each
block is built independently); an empty output yields no records without
the sentinel option and exactly one null-numbered empty record with it. -/
theorem line_corpus_builder_records (outputs : List (String × String))
    (keep : Bool) (now host output : String) :
    (df_from_raw outputs keep now
        = outputs.flatMap (fun ho => df_from_raw [ho] keep now)) ∧
    (output ≠ "" →
      (df_from_raw [(host, output)] keep now).map Row.line = splitlines output ∧
      (df_from_raw [(host, output)] keep now).map Row.line_no
        = (List.range' 1 (splitlines output).length).map some) ∧
    (df_from_raw [(host, "")] false now = []) ∧
    (df_from_raw [(host, "")] true now
      = [{ host := host, line_no := none, line := "", ts := now }]) := by
  refine ⟨?_, ?_, ?_, ?_⟩
  · rw [df_from_raw_eq_flatMap]
    simp [df_from_raw_singleton]
  · intro h
    rw [df_from_raw_singleton, host_rows_of_ne host output keep now h]
    exact ⟨enum_map_line output host now, enum_map_line_no output host now⟩
  · rw [df_from_raw_singleton]
    simp [host_rows]
  · rw [df_from_raw_singleton]
    simp [host_rows]

theorem line_corpus_builder_records_witness :
    (df_from_raw [("r1", "a\nb")] false "T").map Row.line = ["a", "b"] ∧
    (df_from_raw [("r1", "a\nb")] false "T").map Row.line_no = [some 1, some 2] := by
  have h := (line_corpus_builder_records [] false "T" "r1" "a\nb").2.1 (by decide)
  refine ⟨?_, ?_⟩
  · rw [h.1]; decide
  · rw [h.2]; decide

theorem mem_ite_singleton {c : Prop} [Decidable c] (a r : Row)
    (h : r ∈ (if c then [a] else [])) : r = a := by
  split at h
  · exact List.mem_singleton.mp h
  · exact absurd h (List.not_mem_nil r)

/-- C10: every record of one df_from_raw invocation carries the timestamp
taken once before the loop. -/
theorem df_from_raw_single_timestamp (outputs : List (String × String))
    (keep : Bool) (now : String) :
    ∀ r ∈ df_from_raw outputs keep now, r.ts = now := by
  intro r hr
  rw [df_from_raw_eq_flatMap] at hr
  rcases List.mem_flatMap.mp hr with ⟨ho, _, hmem⟩
  simp only [host_rows] at hmem
  rcases List.mem_append.mp hmem with h | h
  · rw [mem_ite_singleton _ r h]
  · rcases List.mem_map.mp h with ⟨il, _, hil⟩
    rw [← hil]

theorem df_from_raw_single_timestamp_witness :
    ({ host := "h", line_no := some 1, line := "x", ts := "T" } : Row).ts = "T" :=
  df_from_raw_single_timestamp [("h", "x")] false "T" _ (by decide)

/-- C4: applying the filter chain twice with the same specification gives
the same corpus as applying it once. -/
theorem filter_chain_idempotent (df : List Row) (hc it et ir er : String) :
    apply_filters (apply_filters df hc it et ir er) hc it et ir er
      = apply_filters df hc it et ir er := by
  rw [apply_filters_eq df hc it et ir er,
    apply_filters_eq (df.filter (filterPred hc it et ir er)) hc it et ir er,
    List.filter_filter]
  exact List.filter_congr
    (fun x _ => by cases h : filterPred hc it et ir er x <;> simp [h])

/-- C9: the filter chain is one pass of List.filter with a row-local
predicate, hence it returns a new view that is an order-preserving
subsequence of the input; the input corpus itself is untouched (the
embedding is pure and the source copies the frame before masking). -/
theorem filter_chain_preserves_order (df : List Row) (hc it et ir er : String) :
    apply_filters df hc it et ir er = df.filter (filterPred hc it et ir er) ∧
    List.Sublist (apply_filters df hc it et ir er) df :=
  ⟨apply_filters_eq df hc it et ir er, by
    rw [apply_filters_eq]
    exact List.filter_sublist df⟩

/-- C5: a pattern the compiler rejects makes its regex stage a no-op (the
chain behaves as if that field were empty, and, being a total function,
never raises), whether it is the include or the exclude field; and a
compiled stage matches case-insensitively: searching the lower-cased line
agrees with searching the original line. -/
theorem invalid_regex_is_noop (df : List Row) (hc it et pbad pother : String)
    (hbad : parseRegex pbad = none) :
    apply_filters df hc it et pbad pother = apply_filters df hc it et "" pother ∧
    apply_filters df hc it et pother pbad = apply_filters df hc it et pother "" ∧
    ∀ (rx : RE) (line : String), reSearch rx (lowerStr line) = reSearch rx line := by
  have hnone : safe_regex pbad = none := by
    unfold safe_regex
    by_cases h : pbad = ""
    · simp [h]
    · simp [h, hbad]
  have hempty : safe_regex "" = none := by simp [safe_regex]
  refine ⟨?_, ?_, fun rx line => reSearch_lower rx line⟩
  · rw [apply_filters_eq, apply_filters_eq]
    exact List.filter_congr (fun x _ => by simp [filterPred, hnone, hempty])
  · rw [apply_filters_eq, apply_filters_eq]
    exact List.filter_congr (fun x _ => by simp [filterPred, hnone, hempty])

theorem invalid_regex_is_noop_witness :
    apply_filters [{ host := "R1", line_no := some 1, line := "up", ts := "T" }]
        "" "" "" "(" "x"
      = apply_filters [{ host := "R1", line_no := some 1, line := "up", ts := "T" }]
        "" "" "" "" "x" ∧
    reSearch (RE.lit 'a') (lowerStr "ABa") = reSearch (RE.lit 'a') "ABa" := by
  have h := invalid_regex_is_noop
    [{ host := "R1", line_no := some 1, line := "up", ts := "T" }]
    "" "" "" "(" "x" (by decide)
  exact ⟨h.1, h.2.2 (RE.lit 'a') "ABa"⟩

theorem sl_step_counts (prefer : Bool) (parse : String → List TRow)
    (st : SLState) (res : RunResult) :
    ((sl_step prefer parse st res).raw_outputs.length
        + (sl_step prefer parse st res).errors.length
      = st.raw_outputs.length + st.errors.length + 1) ∧
    (sl_step prefer parse st res).done = st.done + 1 := by
  unfold sl_step
  by_cases h : res.error ≠ "" <;> by_cases hp : prefer = true <;>
    simp [h, hp] <;> omega

theorem sl_foldl_counts (prefer : Bool) (parse : String → List TRow) :
    ∀ (results : List RunResult) (st : SLState),
      ((results.foldl (sl_step prefer parse) st).raw_outputs.length
          + (results.foldl (sl_step prefer parse) st).errors.length
        = st.raw_outputs.length + st.errors.length + results.length) ∧
      (results.foldl (sl_step prefer parse) st).done = st.done + results.length := by
  intro results
  induction results with
  | nil => intro st; simp
  | cons r rest ih =>
    intro st
    simp only [List.foldl_cons, List.length_cons]
    obtain ⟨ih1, ih2⟩ := ih (sl_step prefer parse st r)
    obtain ⟨hs1, hs2⟩ := sl_step_counts prefer parse st r
    constructor
    · rw [ih1, hs1]; omega
    · rw [ih2, hs2]; omega

theorem tk_step_done (prefer : Bool) (parse : String → List TRow × String)
    (st : SLState) (res : RunResult) :
    (tk_step prefer parse st res).done = st.done + 1 := by
  unfold tk_step
  by_cases h : res.error ≠ "" <;> by_cases hp : prefer = true <;>
    by_cases hr : (parse res.output).1 = [] <;> simp [h, hp, hr]

theorem tk_step_counts_nopref (parse : String → List TRow × String)
    (st : SLState) (res : RunResult) :
    (tk_step false parse st res).raw_outputs.length
        + (tk_step false parse st res).errors.length
      = st.raw_outputs.length + st.errors.length + 1 := by
  unfold tk_step
  by_cases h : res.error ≠ "" <;> simp [h] <;> omega

theorem tk_foldl_counts (prefer : Bool) (parse : String → List TRow × String) :
    ∀ (results : List RunResult) (st : SLState),
      ((results.foldl (tk_step false parse) st).raw_outputs.length
          + (results.foldl (tk_step false parse) st).errors.length
        = st.raw_outputs.length + st.errors.length + results.length) ∧
      (results.foldl (tk_step prefer parse) st).done = st.done + results.length := by
  intro results
  induction results with
  | nil => intro st; simp
  | cons r rest ih =>
    intro st
    simp only [List.foldl_cons, List.length_cons]
    obtain ⟨ih1, ih2⟩ := ih (tk_step false parse st r)
    constructor
    · rw [ih1, tk_step_counts_nopref]; omega
    · obtain ⟨_, ih2b⟩ := ih (tk_step prefer parse st r)
      rw [ih2b, tk_step_done]; omega

/-- C1 (amended): for every non-empty target list and concurrency bound of
at least one, with per-target results arriving in any completion order, the
StreamLit loop records exactly one outcome per target, so collected outputs
plus recorded errors equal the target count and the completion counter ends
at the target count; the Tkinter loop does the same when the TextFSM
preference is off, and its completion counter always ends at the target
count (with the preference on its errors list may also receive TextFSM
diagnostics for successful targets, see the counterexample). -/
theorem executor_outcome_counts (targets : List String) (W : Nat)
    (_hW : 1 ≤ W) (_hne : targets ≠ []) (results : List RunResult)
    (hlen : results.length = targets.length) (prefer : Bool)
    (slparse : String → List TRow) (tkparse : String → List TRow × String) :
    ((run_collection prefer slparse results).raw_outputs.length
        + (run_collection prefer slparse results).errors.length
      = targets.length) ∧
    ((run_collection prefer slparse results).done = targets.length) ∧
    ((tk_run_collection false tkparse results).raw_outputs.length
        + (tk_run_collection false tkparse results).errors.length
      = targets.length) ∧
    ((tk_run_collection prefer tkparse results).done = targets.length) := by
  obtain ⟨h1, h2⟩ := sl_foldl_counts prefer slparse results initState
  obtain ⟨h3, h4⟩ := tk_foldl_counts prefer tkparse results initState
  unfold run_collection tk_run_collection
  rw [← hlen]
  exact ⟨by rw [h1]; simp [initState], by rw [h2]; simp [initState],
    by rw [h3]; simp [initState], by rw [h4]; simp [initState]⟩

theorem executor_outcome_counts_witness :
    ((run_collection true (fun _ => [])
        [{ host := "r1", output := "ok", error := "" },
         { host := "r2", output := "", error := "Timeout" }]).raw_outputs.length
      + (run_collection true (fun _ => [])
        [{ host := "r1", output := "ok", error := "" },
         { host := "r2", output := "", error := "Timeout" }]).errors.length
      = 2) ∧
    ((tk_run_collection true (fun _ => ([[("f", "v")]], ""))
        [{ host := "r1", output := "ok", error := "" },
         { host := "r2", output := "", error := "Timeout" }]).done = 2) := by
  have h := executor_outcome_counts ["r1", "r2"] 1 (by decide) (by decide)
    [{ host := "r1", output := "ok", error := "" },
     { host := "r2", output := "", error := "Timeout" }] (by decide) true
    (fun _ => []) (fun _ => ([[("f", "v")]], ""))
  exact ⟨h.1, h.2.2.2⟩

/-- C1 counterexample: with the TextFSM preference on (its default) and a
parse that yields no rows (for instance because the textfsm package is
unavailable), the Tkinter loop records a successful output and also a
TextFSM diagnostic error for the same target, so collected outputs plus
recorded errors exceed the number of targets. -/
theorem executor_outcome_counts_cex :
    (["r1"] : List String) ≠ [] ∧
    ([({ host := "r1", output := "", error := "" } : RunResult)]).length
      = (["r1"] : List String).length ∧
    (tk_run_collection true (fun _ => ([], "textfsm unavailable or empty output"))
        [{ host := "r1", output := "", error := "" }]).raw_outputs.length
      + (tk_run_collection true (fun _ => ([], "textfsm unavailable or empty output"))
          [{ host := "r1", output := "", error := "" }]).errors.length
      ≠ (["r1"] : List String).length := by
  refine ⟨by decide, by decide, ?_⟩
  decide

theorem insertionSort_head_min (l : List String) (c : String) (rest : List String)
    (h : List.insertionSort lenLe l = c :: rest) :
    c ∈ l ∧ ∀ d ∈ l, c.length ≤ d.length := by
  have hperm := List.perm_insertionSort lenLe l
  rw [h] at hperm
  constructor
  · exact hperm.mem_iff.mp (List.mem_cons_self c rest)
  · intro d hd
    have hd2 : d ∈ c :: rest := hperm.mem_iff.mpr hd
    rcases List.mem_cons.mp hd2 with h1 | h1
    · rw [h1]
    · have hsorted := List.sorted_insertionSort lenLe l
      rw [h] at hsorted
      exact List.rel_of_sorted_cons hsorted d h1

/-- C2 (amended): bundle loading collects every extracted directory that
directly contains an index file and activates one whose full path string
has minimal length (not necessarily minimal depth); when no such directory
exists it fails explicitly with a reported error. -/
theorem bundle_load_shortest_path (base : String) (tree : Dir) :
    (candidate_dirs base tree = [] →
      set_templates_from_zip base tree
        = Except.error "No index file found inside the ZIP.") ∧
    (candidate_dirs base tree ≠ [] →
      ∃ c, set_templates_from_zip base tree = Except.ok c ∧
        c ∈ candidate_dirs base tree ∧
        ∀ d ∈ candidate_dirs base tree, c.length ≤ d.length) := by
  constructor
  · intro h
    unfold set_templates_from_zip
    rw [h]
    rfl
  · intro h
    unfold set_templates_from_zip
    rcases hs : List.insertionSort lenLe (candidate_dirs base tree) with _ | ⟨c, rest⟩
    · exfalso
      apply h
      have hperm := List.perm_insertionSort lenLe (candidate_dirs base tree)
      rw [hs] at hperm
      exact hperm.symm.eq_nil
    · obtain ⟨hmem, hmin⟩ := insertionSort_head_min _ c rest hs
      exact ⟨c, rfl, hmem, hmin⟩

theorem bundle_load_shortest_path_witness :
    candidate_dirs "/tmp/t" (Dir.mk "t" ["readme"] []) = [] ∧
    set_templates_from_zip "/tmp/t" (Dir.mk "t" ["readme"] [])
      = Except.error "No index file found inside the ZIP." := by
  have hcand : candidate_dirs "/tmp/t" (Dir.mk "t" ["readme"] []) = [] := by decide
  exact ⟨hcand, (bundle_load_shortest_path "/tmp/t" (Dir.mk "t" ["readme"] [])).1 hcand⟩

/-- C2 counterexample: in a bundle holding the index both under a long
shallow directory name and under a short nested path, the loader activates
the nested (deeper) directory because its path string is shorter, refuting
the claim that the shallowest candidate is selected. -/
theorem bundle_load_shortest_path_cex :
    candidate_dirs "/tmp/t"
        (Dir.mk "t" [] [Dir.mk "longdirname" ["index"] [],
          Dir.mk "a" [] [Dir.mk "b" ["index"] []]])
      = ["/tmp/t/longdirname", "/tmp/t/a/b"] ∧
    set_templates_from_zip "/tmp/t"
        (Dir.mk "t" [] [Dir.mk "longdirname" ["index"] [],
          Dir.mk "a" [] [Dir.mk "b" ["index"] []]])
      = Except.ok "/tmp/t/a/b" ∧
    pathDepth "/tmp/t/a/b" = 4 ∧
    pathDepth "/tmp/t/longdirname" = 3 := by
  refine ⟨by decide, by rfl, by decide, by decide⟩

/-- C3 (amended): both export selectors honor the tier priority template,
then pattern, then split, then lines, with two provisos visible in the
code: the template tier exports the structured view (the template rows as
narrowed by the structured-view filter; exactly the template rows when that
filter is inactive), and the desktop selector falls back to the full line
corpus when the filtered line view is empty. -/
theorem best_available_priority {α : Type} (s sf r sp f a : List α) :
    (s ≠ [] →
      download_structured_best s sf r sp f a
        = ((if sf.isEmpty then s else sf), "show_results_textfsm_structured.csv") ∧
      streamlit_best s sf r sp f = (sf, "show_results_textfsm_structured.csv")) ∧
    (s = [] → r ≠ [] →
      download_structured_best s sf r sp f a
        = (r, "show_results_regex_structured.csv") ∧
      streamlit_best s sf r sp f = (r, "show_results_regex_structured.csv")) ∧
    (s = [] → r = [] → sp ≠ [] →
      download_structured_best s sf r sp f a
        = (sp, "show_results_split_columns.csv") ∧
      streamlit_best s sf r sp f = (sp, "show_results_split_columns.csv")) ∧
    (s = [] → r = [] → sp = [] →
      download_structured_best s sf r sp f a
        = ((if f.isEmpty then a else f), "show_results_filtered_lines.csv") ∧
      streamlit_best s sf r sp f = (f, "show_results_filtered_lines.csv")) ∧
    (s ≠ [] → (sf = [] ∨ sf = s) →
      download_structured_best s sf r sp f a
        = (s, "show_results_textfsm_structured.csv")) := by
  refine ⟨?_, ?_, ?_, ?_, ?_⟩
  · intro hs
    have hs2 : s.isEmpty = false := List.isEmpty_eq_false.mpr hs
    constructor
    · simp only [download_structured_best, hs2]
      cases hb : sf.isEmpty <;> simp
    · simp [streamlit_best, hs2]
  · intro hs hr
    have hr2 : r.isEmpty = false := List.isEmpty_eq_false.mpr hr
    constructor <;> simp [download_structured_best, streamlit_best, hs, hr2]
  · intro hs hr hsp
    have hsp2 : sp.isEmpty = false := List.isEmpty_eq_false.mpr hsp
    constructor <;> simp [download_structured_best, streamlit_best, hs, hr, hsp2]
  · intro hs hr hsp
    constructor
    · simp only [download_structured_best, hs, hr, hsp]
      cases hb : f.isEmpty <;> simp
    · simp [streamlit_best, hs, hr, hsp]
  · intro hs hsf
    have hs2 : s.isEmpty = false := List.isEmpty_eq_false.mpr hs
    rcases hsf with hsf | hsf <;>
      simp [download_structured_best, hs2, hsf]

theorem best_available_priority_witness :
    download_structured_best ([] : List TRow) [] [[("a", "x")]] [] [] []
      = ([[("a", "x")]], "show_results_regex_structured.csv") ∧
    streamlit_best ([] : List TRow) [] [[("a", "x")]] [] []
      = ([[("a", "x")]], "show_results_regex_structured.csv") :=
  (best_available_priority ([] : List TRow) [] [[("a", "x")]] [] [] []).2.1
    rfl (by decide)

/-- C3 counterexample: with non-empty template rows, non-empty pattern
rows and an active structured-view filter (a run state reached by typing a
filter on the structured view), the export is the filtered structured view
and differs from the template rows, refuting the claim that the export
then equals the template rows. -/
theorem best_available_priority_cex :
    download_structured_best
        [[("interface", "Gi0/1")], [("interface", "Gi0/2")]]
        [[("interface", "Gi0/1")]] [[("a", "x")]] [] [] ([] : List TRow)
      = ([[("interface", "Gi0/1")]], "show_results_textfsm_structured.csv") ∧
    ([[("interface", "Gi0/1")]] : List TRow)
      ≠ [[("interface", "Gi0/1")], [("interface", "Gi0/2")]] :=
  ⟨rfl, by decide⟩

/-- C7 (amended): for a compiled named-capture pattern, the pattern tier
processes every line independently (the result is the per-line extraction
table filtered to the rows where some group captured): a line whose match
populates at least one named column produces exactly one row, while a line
with no match, or whose match populates no named column, is dropped;
matching is case-insensitive (searching the lower-cased line agrees with
searching the original); and the pattern of the specification example
yields exactly the expected single row. -/
theorem pattern_tier_rows (df : List Row) (pattern : String) (rx : RE)
    (hparse : parseRegex pattern = some rx)
    (hgroups : (groupNamesRE rx).isEmpty = false) :
    (regex_extract df pattern
      = Except.ok ((df.map (toExtractRow rx)).filter
          (fun er => er.caps.any (fun pr => pr.2.isSome)))) ∧
    (∀ r : Row, searchPos rx r.line.data true = none →
      ((extractGroups rx r.line).any (fun pr => pr.2.isSome)) = false) ∧
    (∀ line : String, (searchPos rx (lowerStr line).data true).isSome
        = (searchPos rx line.data true).isSome) ∧
    (regex_extract
        [{ host := "h", line_no := some 1, line := "eth0 up", ts := "T" },
         { host := "h", line_no := some 2, line := "bad", ts := "T" }]
        "^(?P<a>\\S+)\\s+(?P<b>\\S+)$"
      = Except.ok [{ host := "h", line_no := some 1, line := "eth0 up",
                     caps := [("a", some "eth0"), ("b", some "up")] }]) := by
  refine ⟨?_, ?_, ?_, by rfl⟩
  · unfold regex_extract
    rw [hparse]
    simp only [hgroups, Bool.false_eq_true, if_false]
    rfl
  · intro r hnone
    unfold extractGroups
    rw [hnone]
    simp
  · intro line
    exact (searchPos_lower rx line.data true).symm

theorem pattern_tier_rows_witness :
    regex_extract [{ host := "h", line_no := some 1, line := "z 9", ts := "T" }]
        "(?P<a>\\d)"
      = Except.ok [{ host := "h", line_no := some 1, line := "z 9",
                     caps := [("a", some "9")] }] := by
  have h := pattern_tier_rows
    [{ host := "h", line_no := some 1, line := "z 9", ts := "T" }]
    "(?P<a>\\d)" ((parseRegex "(?P<a>\\d)").getD RE.eps) (by rfl) (by rfl)
  rw [h.1]
  rfl

/-- C7 counterexample: the pattern of one optional named group is valid
and matches the line (with the group unparticipating), yet the extraction
drops the matching line because no column captured, refuting the claim
that every matching line produces one row. -/
theorem pattern_tier_rows_cex :
    (parseRegex "(?P<a>x)?").isSome = true ∧
    (parseRegex "(?P<a>x)?").elim false (fun rx => reSearch rx "y") = true ∧
    regex_extract [{ host := "h", line_no := some 1, line := "y", ts := "T" }]
        "(?P<a>x)?"
      = Except.ok [] :=
  ⟨by decide, by decide, by rfl⟩

theorem foldl_max_init : ∀ (l : List Nat) (a : Nat), a ≤ l.foldl max a := by
  intro l
  induction l with
  | nil => intro a; simp
  | cons x rest ih =>
    intro a
    simp only [List.foldl_cons]
    exact le_trans (le_max_left a x) (ih (max a x))

theorem mem_le_foldl_max : ∀ (l : List Nat) (a x : Nat), x ∈ l → x ≤ l.foldl max a := by
  intro l
  induction l with
  | nil => intro a x hx; cases hx
  | cons y rest ih =>
    intro a x hx
    simp only [List.foldl_cons]
    rcases List.mem_cons.mp hx with h | h
    · rw [h]
      exact le_trans (le_max_right a y) (foldl_max_init rest (max a y))
    · exact ih (max a y) x h

/-- C8: for a non-empty corpus and non-empty delimiter, the split tier
emits one row per line, each line partitioned by the delimiter (the
reserved token whitespace selecting any-run-of-whitespace semantics and
maxsplit zero meaning unlimited inside py_split), every row padded with
absent values up to the widest split of the corpus, with positional column
names c0, c1 and so on; the specification example splits as stated. -/
theorem split_tier_columns (df : List Row) (delimiter : String) (maxsplit : Nat)
    (hdf : df ≠ []) (hd : delimiter ≠ "") :
    (split_columns df delimiter maxsplit
      = df.map (fun r =>
          { host := r.host, line_no := r.line_no, line := r.line,
            cols := (py_split r.line delimiter maxsplit).map some
              ++ List.replicate (split_width df delimiter maxsplit
                  - (py_split r.line delimiter maxsplit).length) none })) ∧
    (split_columns df delimiter maxsplit).length = df.length ∧
    (∀ sr ∈ split_columns df delimiter maxsplit,
      sr.cols.length = split_width df delimiter maxsplit) ∧
    split_colnames df delimiter maxsplit
      = (List.range (split_width df delimiter maxsplit)).map
          (fun i => "c" ++ toString i) ∧
    py_split "Gi0/1 up up" "whitespace" 1 = ["Gi0/1", "up up"] := by
  have hguard : (df.isEmpty || decide (delimiter = "")) = false := by
    rcases df with _ | _
    · exact absurd rfl hdf
    · simp [hd]
  have heq : split_columns df delimiter maxsplit
      = df.map (fun r =>
          { host := r.host, line_no := r.line_no, line := r.line,
            cols := (py_split r.line delimiter maxsplit).map some
              ++ List.replicate (split_width df delimiter maxsplit
                  - (py_split r.line delimiter maxsplit).length) none }) := by
    unfold split_columns
    rw [hguard]
    rfl
  refine ⟨heq, by rw [heq]; exact List.length_map df _, ?_, rfl, by decide⟩
  intro sr hsr
  rw [heq] at hsr
  rcases List.mem_map.mp hsr with ⟨r, hr, hmk⟩
  have hle : (py_split r.line delimiter maxsplit).length
      ≤ split_width df delimiter maxsplit := by
    apply mem_le_foldl_max
    exact List.mem_map.mpr ⟨r, hr, rfl⟩
  rw [← hmk]
  simp only [List.length_append, List.length_map, List.length_replicate]
  omega

theorem split_tier_columns_witness :
    split_columns [{ host := "h", line_no := some 1, line := "Gi0/1 up up",
                     ts := "T" }] "whitespace" 1
      = [{ host := "h", line_no := some 1, line := "Gi0/1 up up",
           cols := [some "Gi0/1", some "up up"] }] ∧
    py_split "Gi0/1 up up" "whitespace" 1 = ["Gi0/1", "up up"] := by
  have h := split_tier_columns
    [{ host := "h", line_no := some 1, line := "Gi0/1 up up", ts := "T" }]
    "whitespace" 1 (by decide) (by decide)
  refine ⟨?_, h.2.2.2.2⟩
  rw [h.1]
  decide
